import Mathlib

/-!
# Verification of the next-campaign-page-kit core

A shallow embedding, in Lean 4, of the core of the campaign page kit:
the build orchestrator's output-path resolution (`resolveOutput`), the
per-file build pipeline (`build`), the two-pass page renderer
(`renderPage`), the template-engine adapter's `campaign_asset` filter and
`campaign_include` directive, the dev server's static-file handler
(`serve`) and its single-flight rebuild state machine (`handleChange`),
and the dev action's rebuild-scope classifier (`onRebuild`).

JavaScript strings are modelled as Lean `String`; machine file systems and
the template engine's parse/render primitives are modelled as explicit
function parameters returning `Except` (an exception becomes an `.error`
value).  `path.join` is modelled segment-wise: empty segments are dropped
when joining, and `.`/`..` segments are normalised where the source relies
on normalisation (the dev server's request resolution).
-/

namespace CampaignKit

/-! ## String and path utilities -/

/-- Split a character list at every occurrence of `sep`, JavaScript
`String.prototype.split` style: the empty list yields `[[]]`, separators at
the ends yield empty groups. -/
def splitChars (sep : Char) : List Char → List (List Char)
  | [] => [[]]
  | c :: cs =>
    if c = sep then [] :: splitChars sep cs
    else
      match splitChars sep cs with
      | [] => [[c]]
      | g :: gs => (c :: g) :: gs

/-- `relFile.split('/')` from the build pipeline. -/
def splitOnSlash (s : String) : List String :=
  (splitChars '/' s.data).map (fun l => ⟨l⟩)

/-- Join path segments with `/`, without inserting a separator for an empty
list; helper for `pathJoin`. -/
def joinSegs : List String → String
  | [] => ""
  | [s] => s
  | s :: rest => s ++ "/" ++ joinSegs rest

/-- `path.join(...)` on already-clean segments: empty segments are dropped,
the rest are joined with `/`.  (The `.`/`..` normalisation that `path.join`
also performs is modelled separately by `joinNorm`, used only where the
source depends on it.) -/
def pathJoin (l : List String) : String :=
  joinSegs (l.filter (fun s => !(s == "")))

/-- Strip the reversed suffix `.html`: matches `'l'::'m'::'t'::'h'::'.'::rest`
on a reversed character list. -/
def stripDotHtmlRev : List Char → Option (List Char)
  | 'l' :: 'm' :: 't' :: 'h' :: '.' :: rest => some rest
  | _ => none

/-- `s.replace(/\.html$/, '')`: drop one trailing `.html` if present. -/
def dropDotHtml (s : String) : String :=
  match stripDotHtmlRev s.data.reverse with
  | some rest => ⟨rest.reverse⟩
  | none => s

/-- `rel.endsWith('.html')`. -/
def endsHtml (s : String) : Bool :=
  (stripDotHtmlRev s.data.reverse).isSome

/-- Drop one leading `/` if present. -/
def stripLeadSlash (s : String) : String :=
  match s.data with
  | '/' :: rest => ⟨rest⟩
  | _ => s

/-- Drop one trailing `/` if present. -/
def stripTrailSlash (s : String) : String :=
  match s.data.reverse with
  | '/' :: rest => ⟨rest.reverse⟩
  | _ => s

/-- `permalink.replace(/^\/|\/$/g, '')`: the anchored alternation removes at
most one leading and one trailing slash. -/
def stripSlashes (p : String) : String :=
  stripTrailSlash (stripLeadSlash p)

/-- JavaScript truthiness of an optional string (`if (x)`): `none` and the
empty string are falsy. -/
def truthy : Option String → Option String
  | some s => if s = "" then none else some s
  | none => none

/-! ## Output-path resolution (`resolveOutput`, engine/build.js) -/

/-- A unit-registry entry (`campaigns.json` row); only the fields the core
reads are modelled. -/
structure Campaign where
  name : String
  slug : String
deriving Repr, DecidableEq

/-- The front-matter keys consumed by the build pipeline.  All other keys
flow into the render context untouched and are modelled there as an
association list. -/
structure Frontmatter where
  permalink : Option String := none
  page_layout : Option String := none
deriving Repr, DecidableEq

/-- `resolveOutput(relFile, frontmatter, outputPath)` from engine/build.js:
a truthy `permalink` wins, stripped of one leading and one trailing slash;
otherwise the first path segment is the campaign slug and the last segment,
minus a trailing `.html`, is the page name, with `index` collapsing onto the
slug directory. -/
def resolveOutput (relFile : String) (fm : Frontmatter) (outputPath : String) :
    String × String :=
  match truthy fm.permalink with
  | some p =>
    let permalink := stripSlashes p
    ("/" ++ permalink ++ "/", pathJoin [outputPath, permalink, "index.html"])
  | none =>
    let parts := splitOnSlash relFile
    let campaignSlug := parts.headD ""
    let filename := dropDotHtml (parts.getLastD "")
    if filename = "index" then
      ("/" ++ campaignSlug ++ "/", pathJoin [outputPath, campaignSlug, "index.html"])
    else
      ("/" ++ campaignSlug ++ "/" ++ filename ++ "/",
        pathJoin [outputPath, campaignSlug, filename, "index.html"])

example :
    resolveOutput "my-campaign/presale.html" {} "_site"
      = ("/my-campaign/presale/", "_site/my-campaign/presale/index.html") := by
  decide

example :
    resolveOutput "my-campaign/index.html" {} "_site"
      = ("/my-campaign/", "_site/my-campaign/index.html") := by
  decide

example :
    resolveOutput "x/y.html" { permalink := some "/custom/path/" } "_site"
      = ("/custom/path/", "_site/custom/path/index.html") := by
  decide

example :
    resolveOutput "a/b.md" {} "_site"
      = ("/a/b.md/", "_site/a/b.md/index.html") := by
  decide

/-! ## String lemmas -/

/-- A string with no `/` character: a single path segment. -/
def noSlash (s : String) : Prop := '/' ∉ s.data

instance noSlash.decidable (s : String) : Decidable (noSlash s) :=
  inferInstanceAs (Decidable ('/' ∉ s.data))

theorem strData_inj {a b : String} (h : a.data = b.data) : a = b := by
  cases a; cases b; simp at h; rw [h]

theorem strData_append (a b : String) : (a ++ b).data = a.data ++ b.data := rfl

theorem noSlash_append {a b : String} (ha : noSlash a) (hb : noSlash b) :
    noSlash (a ++ b) := by
  unfold noSlash at *
  rw [strData_append]
  simp [List.mem_append, ha, hb]

theorem splitChars_ne_nil (sep : Char) : ∀ l : List Char, splitChars sep l ≠ [] := by
  intro l
  cases l with
  | nil => simp [splitChars]
  | cons c cs =>
    simp only [splitChars]
    split
    · simp
    · split
      · simp
      · simp

theorem splitChars_noSep (sep : Char) : ∀ l : List Char, sep ∉ l → splitChars sep l = [l] := by
  intro l
  induction l with
  | nil => intro _; rfl
  | cons c cs ih =>
    intro h
    rw [List.mem_cons, not_or] at h
    obtain ⟨h1, h2⟩ := h
    simp only [splitChars]
    rw [if_neg (fun e => h1 e.symm), ih h2]

theorem splitChars_sep_append (sep : Char) : ∀ (a b : List Char), sep ∉ a →
    splitChars sep (a ++ sep :: b) = a :: splitChars sep b := by
  intro a
  induction a with
  | nil =>
    intro b _
    simp [splitChars]
  | cons c cs ih =>
    intro b h
    rw [List.mem_cons, not_or] at h
    obtain ⟨h1, h2⟩ := h
    simp only [List.cons_append, splitChars, List.append_eq]
    rw [if_neg (fun e => h1 e.symm), ih b h2]

/-- Splitting at the first separator is injective when neither left part
contains the separator. -/
theorem sepSplit_inj (sep : Char) : ∀ (a c b d : List Char), sep ∉ a → sep ∉ c →
    a ++ sep :: b = c ++ sep :: d → a = c ∧ b = d := by
  intro a
  induction a with
  | nil =>
    intro c b d _ hc he
    cases c with
    | nil => simpa using he
    | cons y c' =>
      rw [List.nil_append, List.cons_append] at he
      injection he with h1 h2
      exact absurd (h1 ▸ List.mem_cons_self y c') hc
  | cons x a' ih =>
    intro c b d ha hc he
    rw [List.mem_cons, not_or] at ha
    obtain ⟨ha1, ha2⟩ := ha
    cases c with
    | nil =>
      rw [List.cons_append, List.nil_append] at he
      injection he with h1 _
      exact absurd rfl (h1 ▸ ha1)
    | cons y c' =>
      rw [List.cons_append, List.cons_append] at he
      injection he with h1 h2
      have hc' : sep ∉ c' := fun m => hc (List.mem_cons_of_mem y m)
      obtain ⟨e1, e2⟩ := ih c' b d ha2 hc' h2
      exact ⟨by rw [h1, e1], e2⟩

theorem splitOnSlash_pair (slug last : String) (h1 : noSlash slug) (h2 : noSlash last) :
    splitOnSlash (slug ++ "/" ++ last) = [slug, last] := by
  unfold splitOnSlash
  have hd : (slug ++ "/" ++ last).data = slug.data ++ '/' :: last.data := by
    rw [strData_append, strData_append, List.append_assoc]
    rfl
  rw [hd, splitChars_sep_append '/' _ _ h1, splitChars_noSep '/' _ h2]
  rfl

theorem dropDotHtml_append (n : String) : dropDotHtml (n ++ ".html") = n := by
  unfold dropDotHtml
  have hd : (n ++ ".html").data.reverse = 'l' :: 'm' :: 't' :: 'h' :: '.' :: n.data.reverse := by
    rw [strData_append, List.reverse_append]
    rfl
  rw [hd]
  simp only [stripDotHtmlRev, List.reverse_reverse]

theorem pathJoin_three (a b c : String) (ha : a ≠ "") (hb : b ≠ "") (hc : c ≠ "") :
    pathJoin [a, b, c] = a ++ "/" ++ (b ++ "/" ++ c) := by
  unfold pathJoin
  have e1 : (a == "") = false := beq_eq_false_iff_ne.mpr ha
  have e2 : (b == "") = false := beq_eq_false_iff_ne.mpr hb
  have e3 : (c == "") = false := beq_eq_false_iff_ne.mpr hc
  simp [List.filter, e1, e2, e3, joinSegs]

theorem pathJoin_four (a b c d : String) (ha : a ≠ "") (hb : b ≠ "") (hc : c ≠ "")
    (hd : d ≠ "") :
    pathJoin [a, b, c, d] = a ++ "/" ++ (b ++ "/" ++ (c ++ "/" ++ d)) := by
  unfold pathJoin
  have e1 : (a == "") = false := beq_eq_false_iff_ne.mpr ha
  have e2 : (b == "") = false := beq_eq_false_iff_ne.mpr hb
  have e3 : (c == "") = false := beq_eq_false_iff_ne.mpr hc
  have e4 : (d == "") = false := beq_eq_false_iff_ne.mpr hd
  simp [List.filter, e1, e2, e3, e4, joinSegs]

/-- The fully computed no-permalink branch of `resolveOutput` on a
two-segment `.html` path. -/
theorem resolveOutput_derived (out slug n : String) (fm : Frontmatter)
    (hp : truthy fm.permalink = none)
    (hs : noSlash slug) (hn : noSlash n)
    (hs0 : slug ≠ "") (hn0 : n ≠ "") (ho : out ≠ "") :
    resolveOutput (slug ++ "/" ++ n ++ ".html") fm out =
      if n = "index"
      then ("/" ++ slug ++ "/", out ++ "/" ++ (slug ++ "/" ++ "index.html"))
      else ("/" ++ slug ++ "/" ++ n ++ "/",
            out ++ "/" ++ (slug ++ "/" ++ (n ++ "/" ++ "index.html"))) := by
  unfold resolveOutput
  rw [hp]
  have hassoc : slug ++ "/" ++ n ++ ".html" = slug ++ "/" ++ (n ++ ".html") := by
    rw [String.append_assoc]
  have hsplit : splitOnSlash (slug ++ "/" ++ n ++ ".html") = [slug, n ++ ".html"] := by
    rw [hassoc]
    exact splitOnSlash_pair slug (n ++ ".html") hs
      (noSlash_append hn (by decide))
  rw [hsplit]
  dsimp only
  rw [show ([slug, n ++ ".html"] : List String).headD "" = slug from rfl]
  rw [show ([slug, n ++ ".html"] : List String).getLastD "" = n ++ ".html" from rfl]
  rw [dropDotHtml_append]
  by_cases hidx : n = "index"
  · rw [if_pos hidx, pathJoin_three out slug "index.html" ho hs0 (by decide), if_pos hidx]
  · rw [if_neg hidx, pathJoin_four out slug n "index.html" ho hs0 hn0 (by decide), if_neg hidx]

/-- The fully computed permalink branch of `resolveOutput`. -/
theorem resolveOutput_permalink (relFile out p : String) (fm : Frontmatter)
    (hp : fm.permalink = some p) (hp0 : p ≠ "")
    (hsp : stripSlashes p ≠ "") (ho : out ≠ "") :
    resolveOutput relFile fm out =
      ("/" ++ stripSlashes p ++ "/",
       out ++ "/" ++ (stripSlashes p ++ "/" ++ "index.html")) := by
  unfold resolveOutput
  have ht : truthy fm.permalink = some p := by
    rw [hp]
    show (if p = "" then none else some p) = some p
    rw [if_neg hp0]
  rw [ht]
  dsimp only
  rw [pathJoin_three out (stripSlashes p) "index.html" ho hsp (by decide)]

theorem strAppend_left_cancel {a b c : String} (h : a ++ b = a ++ c) : b = c := by
  have h' := congrArg String.data h
  rw [strData_append, strData_append] at h'
  exact strData_inj (List.append_cancel_left h')

theorem strLen_append (a b : String) : (a ++ b).data.length = a.data.length + b.data.length := by
  rw [strData_append, List.length_append]

/-- String-level version of `sepSplit_inj` for the `/` separator. -/
theorem strSlashSplit_inj {a c b d : String} (ha : noSlash a) (hc : noSlash c)
    (h : a ++ "/" ++ b = c ++ "/" ++ d) : a = c ∧ b = d := by
  have h' := congrArg String.data h
  rw [strData_append, strData_append, strData_append, strData_append,
    List.append_assoc, List.append_assoc] at h'
  have h2 : a.data ++ '/' :: b.data = c.data ++ '/' :: d.data := h'
  obtain ⟨e1, e2⟩ := sepSplit_inj '/' _ _ _ _ ha hc h2
  exact ⟨strData_inj e1, strData_inj e2⟩

/-- C1 (amended to the `.html` extension the orchestrator discovers):
for a source-relative path `<slug>/<name>.html` with nonempty, slash-free
slug and name and a nonempty output root, `resolveOutput` returns: when the
front-matter declares a nonempty `permalink` (with nonempty stripped form),
URL `/<permalink>/` (stripped of one leading and one trailing slash) and
file `<output-root>/<permalink>/index.html`; otherwise URL `/<slug>/` and
file `<output-root>/<slug>/index.html` when the name is `index`, else URL
`/<slug>/<name>/` and file `<output-root>/<slug>/<name>/index.html`. -/
theorem claim_C1 (out slug n : String) (fm : Frontmatter)
    (hs : noSlash slug) (hn : noSlash n)
    (hs0 : slug ≠ "") (hn0 : n ≠ "") (ho : out ≠ "") :
    (∀ p, fm.permalink = some p → p ≠ "" → stripSlashes p ≠ "" →
      resolveOutput (slug ++ "/" ++ n ++ ".html") fm out =
        ("/" ++ stripSlashes p ++ "/",
         out ++ "/" ++ (stripSlashes p ++ "/" ++ "index.html"))) ∧
    (truthy fm.permalink = none →
      resolveOutput (slug ++ "/" ++ n ++ ".html") fm out =
        if n = "index"
        then ("/" ++ slug ++ "/", out ++ "/" ++ (slug ++ "/" ++ "index.html"))
        else ("/" ++ slug ++ "/" ++ n ++ "/",
              out ++ "/" ++ (slug ++ "/" ++ (n ++ "/" ++ "index.html")))) :=
  ⟨fun p hp hp0 hsp => resolveOutput_permalink _ out p fm hp hp0 hsp ho,
   fun hp => resolveOutput_derived out slug n fm hp hs hn hs0 hn0 ho⟩

/-- Witness for C1 at a concrete page. -/
theorem claim_C1_witness :
    resolveOutput ("camp" ++ "/" ++ "presale" ++ ".html") {} "_site"
      = ("/" ++ "camp" ++ "/" ++ "presale" ++ "/",
         "_site" ++ "/" ++ ("camp" ++ "/" ++ ("presale" ++ "/" ++ "index.html"))) := by
  have h := (claim_C1 "_site" "camp" "presale" {} (by decide) (by decide) (by decide)
    (by decide) (by decide)).2 (by decide)
  rw [h, if_neg (by decide)]

/-- C1 as frozen speaks of "the extension-stripped base name" over every
source-relative file path, but `resolveOutput` strips only a `.html`
extension: on `a/b.md` it yields URL `/a/b.md/`, not `/a/b/`. -/
theorem claim_C1_counterexample :
    resolveOutput "a/b.md" {} "_site" = ("/a/b.md/", "_site/a/b.md/index.html") ∧
    resolveOutput "a/b.md" {} "_site" ≠ ("/a/b/", "_site/a/b/index.html") :=
  ⟨by decide, by decide⟩

/-- C7 (amended to the `.html` extension the orchestrator discovers):
two distinct permalink-free content units `<slug>/<name>.html` (nonempty,
slash-free segments) receive distinct output file paths. -/
theorem claim_C7 (out s1 n1 s2 n2 : String) (fm1 fm2 : Frontmatter)
    (hsl1 : noSlash s1) (hnl1 : noSlash n1) (hsl2 : noSlash s2) (hnl2 : noSlash n2)
    (hs10 : s1 ≠ "") (hn10 : n1 ≠ "") (hs20 : s2 ≠ "") (hn20 : n2 ≠ "") (ho : out ≠ "")
    (hp1 : truthy fm1.permalink = none) (hp2 : truthy fm2.permalink = none)
    (hne : ¬(s1 = s2 ∧ n1 = n2)) :
    (resolveOutput (s1 ++ "/" ++ n1 ++ ".html") fm1 out).2 ≠
      (resolveOutput (s2 ++ "/" ++ n2 ++ ".html") fm2 out).2 := by
  rw [resolveOutput_derived out s1 n1 fm1 hp1 hsl1 hnl1 hs10 hn10 ho,
    resolveOutput_derived out s2 n2 fm2 hp2 hsl2 hnl2 hs20 hn20 ho]
  by_cases h1 : n1 = "index" <;> by_cases h2 : n2 = "index"
  · rw [if_pos h1, if_pos h2]
    intro he
    obtain ⟨e1, _⟩ := strSlashSplit_inj hsl1 hsl2 (strAppend_left_cancel he)
    exact hne ⟨e1, h1.trans h2.symm⟩
  · rw [if_pos h1, if_neg h2]
    intro he
    obtain ⟨_, e2⟩ := strSlashSplit_inj hsl1 hsl2 (strAppend_left_cancel he)
    have hlen := congrArg (fun s : String => s.data.length) e2
    simp only [] at hlen
    rw [strLen_append, strLen_append,
      show ("index.html" : String).data.length = 10 from rfl,
      show ("/" : String).data.length = 1 from rfl] at hlen
    omega
  · rw [if_neg h1, if_pos h2]
    intro he
    obtain ⟨_, e2⟩ := strSlashSplit_inj hsl1 hsl2 (strAppend_left_cancel he)
    have hlen := congrArg (fun s : String => s.data.length) e2
    simp only [] at hlen
    rw [strLen_append, strLen_append,
      show ("index.html" : String).data.length = 10 from rfl,
      show ("/" : String).data.length = 1 from rfl] at hlen
    omega
  · rw [if_neg h1, if_neg h2]
    intro he
    obtain ⟨e1, e2⟩ := strSlashSplit_inj hsl1 hsl2 (strAppend_left_cancel he)
    obtain ⟨e3, _⟩ := strSlashSplit_inj hnl1 hnl2 e2
    exact hne ⟨e1, e3⟩

/-- Witness for C7 at two concrete pages of the same campaign. -/
theorem claim_C7_witness :
    (resolveOutput ("a" ++ "/" ++ "x" ++ ".html") {} "_site").2 ≠
      (resolveOutput ("a" ++ "/" ++ "y" ++ ".html") {} "_site").2 :=
  claim_C7 "_site" "a" "x" "a" "y" {} {} (by decide) (by decide) (by decide) (by decide)
    (by decide) (by decide) (by decide) (by decide) (by decide) (by decide) (by decide)
    (by decide)

/-- C7 fails as frozen for an arbitrary `<ext>`: the distinct permalink-free
units `a/b.c` and `a/b.c.html` (forms `<slug>/<name>.<ext>` with extensions
`c` and `html`) are both emitted to `_site/a/b.c/index.html`. -/
theorem claim_C7_counterexample :
    ("a/b.c" : String) ≠ "a/b.c.html" ∧
    (resolveOutput "a/b.c" {} "_site").2 = (resolveOutput "a/b.c.html" {} "_site").2 :=
  ⟨by decide, by decide⟩

/-! ## Template engine adapter (engine/render.js)

Render-context values are modelled by an inductive `Value`; a LiquidJS
scope/plain object is an association list with head-first lookup, so an
entry nearer the head shadows a later one (matching JS object-literal
"later key wins" once the later key is placed at the head). -/

inductive Value where
  | vstr : String → Value
  | vbool : Bool → Value
  | vnum : Int → Value
  | vobj : List (String × Value) → Value

/-- Property lookup on a modelled JS object / LiquidJS scope. -/
def getKey : List (String × Value) → String → Option Value
  | [], _ => none
  | (k', v) :: rest, k => if k' = k then some v else getKey rest k

/-- `/^https?:\/\//.test(filename)`. -/
def startsWithHttp (s : String) : Bool :=
  match s.data with
  | 'h' :: 't' :: 't' :: 'p' :: ':' :: '/' :: '/' :: _ => true
  | 'h' :: 't' :: 't' :: 'p' :: 's' :: ':' :: '/' :: '/' :: _ => true
  | _ => false

/-- The `campaign_asset` filter: empty filenames short-circuit (JS
truthiness), absolute `http(s)://` URLs pass through, otherwise the
campaign looked up from the render context prefixes the filename; with no
campaign in scope the filename passes through. -/
def campaign_asset (campaign : Option Campaign) (filename : String) : String :=
  if filename = "" then ""
  else if startsWithHttp filename then filename
  else
    match campaign with
    | none => filename
    | some c => "/" ++ c.slug ++ "/" ++ filename

/-- The context `{...frontmatter, campaign, page}` built by `renderPage`:
`campaign` and `page` shadow equally named front-matter keys. -/
def mkContext (fm : List (String × Value)) (campaign page : Value) :
    List (String × Value) :=
  ("page", page) :: ("campaign", campaign) :: fm

/-- `renderPage(engine, {body, frontmatter, campaign, pageData, layoutSrc})`:
pass 1 renders the body against the assembled context; the `if (layoutSrc)`
guard is JS truthiness, so pass 2 runs only for a non-null *and non-empty*
layout source, rendering it against the same context extended with `content`
bound to pass 1's output.  `render` stands for the engine's
`parseAndRender`, which builds a fresh internal scope stack from the plain
context object on every call, so nothing an include pushed (and popped)
during pass 1 can reach pass 2. -/
def renderPage (render : String → List (String × Value) → String)
    (body : String) (fm : List (String × Value)) (campaign page : Value)
    (layoutSrc : Option String) : String :=
  let context := mkContext fm campaign page
  let renderedBody := render body context
  match truthy layoutSrc with
  | some l => render l (("content", Value.vstr renderedBody) :: context)
  | none => renderedBody

/-- The include-local scope `{ ...includeCtx, include: includeCtx }` pushed
by the `campaign_include` directive: each `key=value` pair is visible both
as a top-level variable and under the `include` container. -/
def mkIncludeScope (includeCtx : List (String × Value)) : List (String × Value) :=
  ("include", Value.vobj includeCtx) :: includeCtx

/-- The `campaign_include` tag's render body, as a transformer of the render
context's scope stack (head = innermost scope).  Parameters stand for the
directive's inputs: the ambient `campaign` context value, the quoted
filename argument match, the outcome of `engine.parseFile`, the renderer for
the parsed templates (assumed scope-neutral), and the evaluated `key=value`
scope.  Control flow mirrors the source exactly: the early returns leave the
stack alone; on a parse failure the `catch` swallows the error and the
`finally` still pops — although nothing was pushed, because `ctx.push` runs
after `engine.parseFile` inside the `try`. -/
def campaign_include_render {E T : Type}
    (campaign : Option Value) (filenameArg : Option String)
    (parseFile : Except E T)
    (renderTemplates : T → List (List (String × Value)) → Except E String)
    (includeCtx : List (String × Value))
    (stack : List (List (String × Value))) :
    String × List (List (String × Value)) :=
  match campaign with
  | none => ("", stack)
  | some _ =>
    match filenameArg with
    | none => ("", stack)
    | some _ =>
      match parseFile with
      | .error _ => ("", stack.tail)
      | .ok t =>
        let pushed := mkIncludeScope includeCtx :: stack
        match renderTemplates t pushed with
        | .ok out => (out, pushed.tail)
        | .error _ => ("", pushed.tail)

/-- C9 (amended to nonempty filenames; the filter returns the empty string
unchanged): for every nonempty filename, `campaign_asset` passes an absolute
`http(s)` URL through unchanged; otherwise with a campaign in scope it
returns `/<slug>/<filename>`, and with no campaign in scope it returns the
filename unchanged rather than erroring. -/
theorem claim_C9 (c : Campaign) (cam : Option Campaign) (f : String) (hf : f ≠ "") :
    (startsWithHttp f = true → campaign_asset cam f = f) ∧
    (startsWithHttp f = false → campaign_asset (some c) f = "/" ++ c.slug ++ "/" ++ f) ∧
    campaign_asset none f = f := by
  refine ⟨fun hu => ?_, fun hu => ?_, ?_⟩
  · unfold campaign_asset
    rw [if_neg hf, if_pos hu]
  · unfold campaign_asset
    rw [if_neg hf, if_neg (by rw [hu]; exact Bool.false_ne_true)]
  · unfold campaign_asset
    rw [if_neg hf]
    by_cases hu : startsWithHttp f = true
    · rw [if_pos hu]
    · rw [if_neg hu]

/-- Witness for C9 on a relative asset and an absolute URL. -/
theorem claim_C9_witness :
    campaign_asset (some ⟨"Test Campaign", "test-campaign"⟩) "style.css"
        = "/" ++ "test-campaign" ++ "/" ++ "style.css" ∧
    campaign_asset (some ⟨"Test Campaign", "test-campaign"⟩) "https://cdn.example/x.png"
        = "https://cdn.example/x.png" :=
  ⟨(claim_C9 ⟨"Test Campaign", "test-campaign"⟩ (some ⟨"Test Campaign", "test-campaign"⟩)
      "style.css" (by decide)).2.1 (by decide),
   (claim_C9 ⟨"Test Campaign", "test-campaign"⟩ (some ⟨"Test Campaign", "test-campaign"⟩)
      "https://cdn.example/x.png" (by decide)).1 (by decide)⟩

/-- C9 fails as frozen on the empty filename: with a campaign in scope the
claim demands `/<slug>/` + filename = `/test-campaign/`, but the filter's
truthiness guard returns the empty string. -/
theorem claim_C9_counterexample :
    campaign_asset (some ⟨"Test Campaign", "test-campaign"⟩) "" = "" ∧
    campaign_asset (some ⟨"Test Campaign", "test-campaign"⟩) "" ≠ "/test-campaign/" :=
  ⟨rfl, by decide⟩

/-- C2 (amended: the source guards pass 2 with JS truthiness, so pass 2
runs exactly when the layout source is non-null *and non-empty*; a null or
empty layout source returns pass 1's output directly): `renderPage` renders
the body against `{...frontmatter, campaign, page}`; for a nonempty layout
source it renders the layout against the same context plus `content` bound
to pass 1's output.  Both passes resolve `campaign`, `page` and every
front-matter key (other than the shadowed `content`) to identical values,
and pass 2's context is built solely from the shared context plus the pass-1
output string, so locally pushed include scopes from pass 1 are not visible
in pass 2. -/
theorem claim_C2 (render : String → List (String × Value) → String)
    (body : String) (fm : List (String × Value)) (c p : Value) :
    (renderPage render body fm c p none = render body (mkContext fm c p)) ∧
    (renderPage render body fm c p (some "") = render body (mkContext fm c p)) ∧
    (∀ l, l ≠ "" → renderPage render body fm c p (some l)
        = render l (("content", Value.vstr (render body (mkContext fm c p)))
            :: mkContext fm c p)) ∧
    (getKey (mkContext fm c p) "campaign" = some c ∧
     getKey (mkContext fm c p) "page" = some p ∧
     getKey (("content", Value.vstr (render body (mkContext fm c p)))
         :: mkContext fm c p) "campaign" = some c ∧
     getKey (("content", Value.vstr (render body (mkContext fm c p)))
         :: mkContext fm c p) "page" = some p) ∧
    (∀ k, k ≠ "content" →
      getKey (("content", Value.vstr (render body (mkContext fm c p)))
          :: mkContext fm c p) k = getKey (mkContext fm c p) k) := by
  refine ⟨rfl, rfl, fun l hl => ?_, ⟨rfl, rfl, rfl, rfl⟩, fun k hk => ?_⟩
  · have ht : truthy (some l) = some l := by
      show (if l = "" then none else some l) = some l
      rw [if_neg hl]
    unfold renderPage
    dsimp only
    rw [ht]
  · have h : getKey (("content", Value.vstr (render body (mkContext fm c p)))
          :: mkContext fm c p) k
        = if "content" = k then some (Value.vstr (render body (mkContext fm c p)))
          else getKey (mkContext fm c p) k := rfl
    rw [h, if_neg (fun e => hk e.symm)]

/-- Witness for C2 at a concrete engine, page and nonempty layout. -/
theorem claim_C2_witness :
    renderPage (fun tpl _ => tpl) "<p>hello</p>" [] (Value.vstr "c") (Value.vstr "p")
        (some "layout") = "layout" :=
  (claim_C2 (fun tpl _ => tpl) "<p>hello</p>" [] (Value.vstr "c") (Value.vstr "p")).2.2.1
    "layout" (by decide)

/-- C2 fails as frozen at a non-null but empty layout source (an existing
empty layout file): `if (layoutSrc)` is JS truthiness, so the program skips
pass 2 and returns pass 1's output (`"body"` under an engine that returns
its template argument), not the render of the layout against the
content-extended context (which would be `""`). -/
theorem claim_C2_counterexample :
    renderPage (fun tpl _ => tpl) "body" [] (Value.vstr "c") (Value.vstr "p")
        (some "") = "body" ∧
    renderPage (fun tpl _ => tpl) "body" [] (Value.vstr "c") (Value.vstr "p")
        (some "")
      ≠ (fun (tpl : String) (_ : List (String × Value)) => tpl) ""
          (("content", Value.vstr "body")
            :: mkContext [] (Value.vstr "c") (Value.vstr "p")) :=
  ⟨rfl, by decide⟩

/-- C3's balanced-stack property is the claim's intent (spec §9: acquire the
child scope, release it in a finally-equivalent block), but the code pops in
`finally` even when the push never ran: `ctx.push` sits after
`engine.parseFile` inside the `try`, so a parse failure (missing include,
syntax error) still pops — removing the caller's innermost scope.  At the
failing input (a missing include file) the directive does emit empty output,
but the scope stack shrinks from `[callerScope]` to `[]` instead of being
preserved; when parsing succeeds the stack is restored both on render
success and render failure. -/
theorem claim_C3 :
    (campaign_include_render (some (Value.vobj [("slug", Value.vstr "camp")]))
        (some "missing.html") (Except.error () : Except Unit Unit)
        (fun _ _ => Except.ok "") [] [[("x", Value.vstr "outer")]]
      = ("", [])) ∧
    ([[("x", Value.vstr "outer")]] : List (List (String × Value))) ≠ [] ∧
    ((campaign_include_render (some (Value.vobj [("slug", Value.vstr "camp")]))
        (some "partial.html") (Except.ok () : Except Unit Unit)
        (fun _ _ => Except.ok "rendered") [] [[("x", Value.vstr "outer")]]).2
      = [[("x", Value.vstr "outer")]]) ∧
    ((campaign_include_render (some (Value.vobj [("slug", Value.vstr "camp")]))
        (some "partial.html") (Except.ok () : Except Unit Unit)
        (fun _ _ => Except.error ()) [] [[("x", Value.vstr "outer")]]).2
      = [[("x", Value.vstr "outer")]]) :=
  ⟨rfl, by simp, rfl, rfl⟩

/-! ## Build orchestrator (engine/build.js)

File-system reads/writes and the engine's render are modelled as explicit
functions returning `Except`: a thrown JS exception is an `.error` value,
and the source's per-file `try/catch` becomes the `.failedFile` outcome. -/

/-- The effectful collaborators of `build`, abstracted: `readFile` is
`fs.readFileSync`, `parseMatter` is gray-matter's front-matter split,
`layoutRead` is the `existsSync ? readFileSync : null` layout probe,
`render` is `renderPage`, `write` is `mkdirSync` + `writeFileSync`, and
`assetsExist` is the `existsSync` probe of the asset-copy loop. -/
structure BuildEnv (E : Type) where
  readFile : String → Except E String
  parseMatter : String → Except E (Frontmatter × String)
  layoutRead : String → Except E (Option String)
  render : String → Frontmatter → Campaign → String × String → Option String → Except E String
  write : String → String → Except E Unit
  assetsExist : String → Bool

inductive FileOutcome where
  | builtFile
  | skippedFile
  | failedFile
deriving Repr, DecidableEq

/-- `frontmatter.page_layout || 'base.html'` (JS truthiness). -/
def layoutFileName (fm : Frontmatter) : String :=
  match truthy fm.page_layout with
  | some l => l
  | none => "base.html"

/-- One iteration of `build`'s per-file loop: read, split front-matter,
derive the slug from the first path segment, skip when no campaign matches,
resolve the output location, probe the layout, render, write.  Any `.error`
along the way lands in the loop's `catch` and yields `.failedFile`. -/
def processFile {E : Type} (env : BuildEnv E) (campaigns : List Campaign)
    (srcPath outputPath relFile : String) : FileOutcome :=
  match env.readFile (pathJoin [srcPath, relFile]) with
  | .error _ => .failedFile
  | .ok raw =>
    match env.parseMatter raw with
    | .error _ => .failedFile
    | .ok (fm, body) =>
      let campaignSlug := (splitOnSlash relFile).headD ""
      match campaigns.find? (fun c => c.slug == campaignSlug) with
      | none => .skippedFile
      | some campaign =>
        let urlOut := resolveOutput relFile fm outputPath
        let pageData := (urlOut.1, pathJoin [srcPath, relFile])
        match env.layoutRead
            (pathJoin [srcPath, campaignSlug, "_layouts", layoutFileName fm]) with
        | .error _ => .failedFile
        | .ok layoutSrc =>
          match env.render body fm campaign pageData layoutSrc with
          | .error _ => .failedFile
          | .ok html =>
            match env.write urlOut.2 html with
            | .error _ => .failedFile
            | .ok _ => .builtFile

/-- The `built`/`errors` counters accumulated over the file loop. -/
def buildPages {E : Type} (env : BuildEnv E) (campaigns : List Campaign)
    (srcPath outputPath : String) : List String → Nat × Nat
  | [] => (0, 0)
  | f :: rest =>
    let r := buildPages env campaigns srcPath outputPath rest
    match processFile env campaigns srcPath outputPath f with
    | .builtFile => (r.1 + 1, r.2)
    | .failedFile => (r.1, r.2 + 1)
    | .skippedFile => r

/-- The aggregate result of `build` (elapsed wall-clock `ms` is outside the
pure model); `copies` records the recursive asset-copy operations
`src/<slug>/assets → <output-root>/<slug>` performed after the file loop. -/
structure BuildResult where
  built : Nat
  errors : Nat
  copies : List (String × String)

/-- `build(opts)` over an explicit file list: the per-file loop, then the
asset-copy loop over every registry entry whose assets directory exists. -/
def build {E : Type} (env : BuildEnv E) (campaigns : List Campaign)
    (srcPath outputPath : String) (files : List String) : BuildResult :=
  let counts := buildPages env campaigns srcPath outputPath files
  { built := counts.1
    errors := counts.2
    copies := campaigns.filterMap (fun c =>
      let assetSrc := pathJoin [srcPath, c.slug, "assets"]
      if env.assetsExist assetSrc then
        some (assetSrc, pathJoin [outputPath, c.slug])
      else none) }

theorem buildPages_counts {E : Type} (env : BuildEnv E) (cs : List Campaign)
    (sp op : String) : ∀ files : List String,
    buildPages env cs sp op files
      = (files.countP (fun f => processFile env cs sp op f == FileOutcome.builtFile),
         files.countP (fun f => processFile env cs sp op f == FileOutcome.failedFile)) := by
  intro files
  induction files with
  | nil => rfl
  | cons f rest ih =>
    simp only [buildPages, ih, List.countP_cons]
    cases ho : processFile env cs sp op f <;> simp [ho]

/-- C4: `build` is a total function of the file list — a file whose read,
front-matter parse, layout probe, render or write throws becomes exactly one
`.failedFile` outcome counted in `errors`, every successfully written file
is counted in `built`, a readable file whose first path segment matches no
registry slug is skipped and counted in neither, and the two counts always
satisfy `built + errors ≤ files.length` (skips account for the gap). -/
theorem claim_C4 {E : Type} (env : BuildEnv E) (cs : List Campaign)
    (sp op : String) (files : List String) :
    ((build env cs sp op files).built
        = files.countP (fun f => processFile env cs sp op f == FileOutcome.builtFile)) ∧
    ((build env cs sp op files).errors
        = files.countP (fun f => processFile env cs sp op f == FileOutcome.failedFile)) ∧
    ((build env cs sp op files).built + (build env cs sp op files).errors
        ≤ files.length) ∧
    (∀ f raw fm body, env.readFile (pathJoin [sp, f]) = .ok raw →
      env.parseMatter raw = .ok (fm, body) →
      cs.find? (fun c => c.slug == (splitOnSlash f).headD "") = none →
      processFile env cs sp op f = .skippedFile) := by
  refine ⟨?_, ?_, ?_, ?_⟩
  · show (buildPages env cs sp op files).1 = _
    rw [buildPages_counts]
  · show (buildPages env cs sp op files).2 = _
    rw [buildPages_counts]
  · show (buildPages env cs sp op files).1 + (buildPages env cs sp op files).2 ≤ _
    induction files with
    | nil => simp [buildPages]
    | cons f rest ih =>
      simp only [buildPages, List.length_cons]
      cases processFile env cs sp op f <;> dsimp only <;> omega
  · intro f raw fm body h1 h2 h3
    unfold processFile
    rw [h1]
    dsimp only
    rw [h2]
    dsimp only
    rw [h3]

/-- A sample environment: everything succeeds trivially, and only
`src/camp/assets` exists. -/
def sampleEnv : BuildEnv Unit where
  readFile := fun _ => .ok ""
  parseMatter := fun _ => .ok ({}, "")
  layoutRead := fun _ => .ok none
  render := fun _ _ _ _ _ => .ok ""
  write := fun _ _ => .ok ()
  assetsExist := fun p => p == "src/camp/assets"

/-- Witness for C4: under `sampleEnv` with an empty registry, a readable
page is skipped, not failed. -/
theorem claim_C4_witness :
    processFile sampleEnv [] "src" "_site" "x/y.html" = FileOutcome.skippedFile :=
  (claim_C4 sampleEnv [] "src" "_site" ["x/y.html"]).2.2.2 "x/y.html" "" {} ""
    rfl rfl rfl

/-- C8: the asset-copy list of `build` does not depend on the file subset:
builds over any two file lists (including the empty incremental list)
perform the same copies, and every registry entry whose
`<src>/<slug>/assets` directory exists contributes the copy
`(<src>/<slug>/assets, <out>/<slug>)`. -/
theorem claim_C8 {E : Type} (env : BuildEnv E) (cs : List Campaign) (sp op : String) :
    (∀ files1 files2 : List String,
      (build env cs sp op files1).copies = (build env cs sp op files2).copies) ∧
    (∀ (files : List String) (c : Campaign), c ∈ cs →
      env.assetsExist (pathJoin [sp, c.slug, "assets"]) = true →
      (pathJoin [sp, c.slug, "assets"], pathJoin [op, c.slug])
        ∈ (build env cs sp op files).copies) := by
  constructor
  · intro files1 files2
    rfl
  · intro files c hc ha
    show _ ∈ cs.filterMap _
    rw [List.mem_filterMap]
    exact ⟨c, hc, by rw [if_pos ha]⟩

/-- Witness for C8: under `sampleEnv`, the campaign `camp` gets its asset
tree copied even when the build's file list is empty. -/
theorem claim_C8_witness :
    (pathJoin ["src", "camp", "assets"], pathJoin ["_site", "camp"])
      ∈ (build sampleEnv [⟨"Camp", "camp"⟩] "src" "_site" []).copies :=
  (claim_C8 sampleEnv [⟨"Camp", "camp"⟩] "src" "_site").2 [] ⟨"Camp", "camp"⟩
    (List.mem_singleton.mpr rfl) (by decide)

/-! ## Rebuild-scope classification (actions/dev.js, `onRebuild`) -/

/-- The rebuild scope the dev action derives from a changed source-relative
path: `some [rel]` rebuilds one page, `some []` copies assets only, `none`
leaves `files` undefined, which makes `build` rediscover and rebuild every
page of the campaign. -/
def classifyChanged (rel : String) : Option (List String) :=
  let parts := splitOnSlash rel
  let isIncludeOrLayout := parts.contains "_includes" || parts.contains "_layouts"
  if endsHtml rel && !isIncludeOrLayout then some [rel]
  else if !(endsHtml rel) then some []
  else none

/-- C6 (amended: only a markup `.html` path under a `_layouts`/`_includes`
segment triggers the full campaign rebuild; a non-markup file under those
segments is treated as an asset): an `.html` path under `_layouts` or
`_includes` yields `none` (full rebuild of the campaign's pages); an `.html`
path outside them yields `some [rel]` (just that page); a non-`.html` path
yields `some []`, under which the build loop renders no page (counts
`(0, 0)`) while the asset copies are those of any other build over the same
registry. -/
theorem claim_C6 {E : Type} (env : BuildEnv E) (cs : List Campaign)
    (sp op : String) (files : List String) (rel : String) :
    (endsHtml rel = true →
      ((splitOnSlash rel).contains "_includes"
          || (splitOnSlash rel).contains "_layouts") = true →
      classifyChanged rel = none) ∧
    (endsHtml rel = true →
      ((splitOnSlash rel).contains "_includes"
          || (splitOnSlash rel).contains "_layouts") = false →
      classifyChanged rel = some [rel]) ∧
    (endsHtml rel = false →
      classifyChanged rel = some [] ∧
      buildPages env cs sp op [] = (0, 0) ∧
      (build env cs sp op []).copies = (build env cs sp op files).copies) := by
  refine ⟨fun hh hi => ?_, fun hh hi => ?_, fun hh => ⟨?_, rfl, rfl⟩⟩
  · unfold classifyChanged
    dsimp only
    rw [hh, hi]
    rfl
  · unfold classifyChanged
    dsimp only
    rw [hh, hi]
    rfl
  · unfold classifyChanged
    dsimp only
    rw [hh]
    rfl

/-- Witness for C6 on the three kinds of changed paths. -/
theorem claim_C6_witness :
    classifyChanged "camp/_includes/hero.html" = none ∧
    classifyChanged "camp/presale.html" = some ["camp/presale.html"] ∧
    classifyChanged "camp/assets/logo.png" = some [] :=
  ⟨(claim_C6 sampleEnv [] "src" "_site" [] "camp/_includes/hero.html").1
      (by decide) (by decide),
   (claim_C6 sampleEnv [] "src" "_site" [] "camp/presale.html").2.1
      (by decide) (by decide),
   ((claim_C6 sampleEnv [] "src" "_site" [] "camp/assets/logo.png").2.2
      (by decide)).1⟩

/-- C6 fails as frozen: a non-markup file under an `_includes` segment is
classified as an asset-only change (`some []`), not as the full rebuild
(`none`) clause (a) demands for every path containing such a segment. -/
theorem claim_C6_counterexample :
    classifyChanged "camp/_includes/theme.css" = some [] ∧
    (some ([] : List String)) ≠ (none : Option (List String)) :=
  ⟨by decide, by decide⟩

/-! ## Dev server (engine/serve.js)

### Single-flight rebuild (`handleChange`)

The server runs on a single-threaded event loop, so `handleChange` executes
atomically from the `if (rebuilding) return` guard up to the `await` of the
rebuild callback, and again from the callback's settlement through
`reload()` and the `finally` that clears the flag.  Each of those atomic
stretches is one labelled transition below; the broadcast output of a
transition is the list of SSE clients written to. -/

/-- The mutable state of one `serve` instance: the `rebuilding` busy flag,
the number of rebuild callbacks in flight, and the registered SSE client
set (clients named by numbers). -/
structure DevState where
  rebuilding : Bool
  inFlight : Nat
  clients : List Nat
deriving Repr, DecidableEq

inductive DevEv where
  | fsChange
  | completeOk
  | completeErr
  | clientOpen (c : Nat)
  | clientClose (c : Nat)
deriving Repr, DecidableEq

/-- Labelled transitions of the dev server.  `fsChange` is a watcher event
entering `handleChange`: dropped when the flag is up, otherwise the flag is
raised and the callback invoked.  `completeOk`/`completeErr` are the
callback settling: success broadcasts `data: reload` to every registered
client, failure is caught and logged; either way the `finally` clears the
flag.  `clientOpen`/`clientClose` are SSE connect/close. -/
inductive DevStep : DevState → DevEv → List Nat → DevState → Prop where
  | drop (s : DevState) : s.rebuilding = true → DevStep s .fsChange [] s
  | start (s : DevState) : s.rebuilding = false →
      DevStep s .fsChange [] { s with rebuilding := true, inFlight := s.inFlight + 1 }
  | finishOk (s : DevState) : 0 < s.inFlight →
      DevStep s .completeOk s.clients
        { s with rebuilding := false, inFlight := s.inFlight - 1 }
  | finishErr (s : DevState) : 0 < s.inFlight →
      DevStep s .completeErr []
        { s with rebuilding := false, inFlight := s.inFlight - 1 }
  | clientOpen (s : DevState) (c : Nat) :
      DevStep s (.clientOpen c) [] { s with clients := s.clients ++ [c] }
  | clientClose (s : DevState) (c : Nat) :
      DevStep s (.clientClose c) [] { s with clients := s.clients.erase c }

/-- The server starts Idle with no callback in flight and no clients. -/
def devInit : DevState := ⟨false, 0, []⟩

inductive DevReachable : DevState → Prop where
  | init : DevReachable devInit
  | step {s : DevState} {e : DevEv} {out : List Nat} {s' : DevState} :
      DevReachable s → DevStep s e out s' → DevReachable s'

/-- C5: in every reachable state the number of in-flight rebuild callbacks
is 1 exactly when the busy flag is up and 0 otherwise (so at most one is
ever in flight); a watcher event arriving while rebuilding leaves the state
unchanged and broadcasts nothing (the event is dropped); a successful
callback completion broadcasts the reload message to exactly the registered
clients and returns the server to Idle; a failed completion broadcasts
nothing and still returns the server to Idle; no other transition
broadcasts. -/
theorem claim_C5 :
    (∀ s : DevState, DevReachable s →
      s.inFlight = (if s.rebuilding then 1 else 0) ∧ s.inFlight ≤ 1) ∧
    (∀ (s : DevState) (out : List Nat) (s' : DevState),
      DevStep s .fsChange out s' → s.rebuilding = true → s' = s ∧ out = []) ∧
    (∀ (s : DevState) (out : List Nat) (s' : DevState),
      DevStep s .completeOk out s' → out = s.clients ∧ s'.rebuilding = false) ∧
    (∀ (s : DevState) (out : List Nat) (s' : DevState),
      DevStep s .completeErr out s' → out = [] ∧ s'.rebuilding = false) ∧
    (∀ (s : DevState) (e : DevEv) (out : List Nat) (s' : DevState),
      DevStep s e out s' → e ≠ .completeOk → out = []) := by
  refine ⟨?_, ?_, ?_, ?_, ?_⟩
  · have key : ∀ s : DevState, DevReachable s → s.inFlight = (if s.rebuilding then 1 else 0) := by
      intro s hs
      induction hs with
      | init => rfl
      | step hr hstep ih =>
        cases hstep with
        | drop h => exact ih
        | start h =>
          rw [h] at ih
          simp at ih
          simp [ih]
        | finishOk h =>
          rename_i t
          by_cases hb : t.rebuilding
          · rw [if_pos hb] at ih
            simp [ih]
          · rw [if_neg hb] at ih
            omega
        | finishErr h =>
          rename_i t
          by_cases hb : t.rebuilding
          · rw [if_pos hb] at ih
            simp [ih]
          · rw [if_neg hb] at ih
            omega
        | clientOpen c => exact ih
        | clientClose c => exact ih
    intro s hs
    refine ⟨key s hs, ?_⟩
    have := key s hs
    by_cases hb : s.rebuilding <;> simp [hb] at this <;> omega
  · intro s out s' hstep hb
    cases hstep with
    | drop h => exact ⟨rfl, rfl⟩
    | start h => rw [h] at hb; exact absurd hb (by simp)
  · intro s out s' hstep
    cases hstep with
    | finishOk h => exact ⟨rfl, rfl⟩
  · intro s out s' hstep
    cases hstep with
    | finishErr h => exact ⟨rfl, rfl⟩
  · intro s e out s' hstep he
    cases hstep with
    | drop h => rfl
    | start h => rfl
    | finishOk h => exact absurd rfl he
    | finishErr h => rfl
    | clientOpen c => rfl
    | clientClose c => rfl

/-- Witness for C5: the state after one watcher event from the initial
state, and a successful completion from it with one registered client. -/
theorem claim_C5_witness :
    ((⟨true, 1, []⟩ : DevState).inFlight = 1 ∧
      (⟨true, 1, []⟩ : DevState).inFlight ≤ 1) ∧
    (([7] : List Nat) = (⟨true, 1, [7]⟩ : DevState).clients ∧
      (⟨false, 0, [7]⟩ : DevState).rebuilding = false) := by
  constructor
  · have h := claim_C5.1 ⟨true, 1, []⟩
      (DevReachable.step DevReachable.init (DevStep.start devInit rfl))
    exact ⟨h.1.trans (by decide), h.2⟩
  · exact claim_C5.2.2.1 ⟨true, 1, [7]⟩ [7] ⟨false, 0, [7]⟩
      (DevStep.finishOk ⟨true, 1, [7]⟩ (by decide))

/-! ### Static-file handler (`serve`'s HTTP request handler) -/

/-- One step of `path.join`'s segment normalisation, over a reversed
accumulator (head = most recent segment): empty and `.` segments vanish,
`..` pops the previous segment (or accumulates when there is nothing left
to pop), anything else is kept. -/
def normStep (acc : List String) (s : String) : List String :=
  if s = "" ∨ s = "." then acc
  else if s = ".." then
    match acc with
    | [] => [".."]
    | top :: rest => if top = ".." then ".." :: acc else rest
  else s :: acc

/-- `path.join(a, b)` including its `.`/`..` normalisation (for
relative-style roots, the form the dev server uses). -/
def joinNorm (a b : String) : String :=
  joinSegs (((splitOnSlash a ++ splitOnSlash b).foldl normStep []).reverse)

/-- `req.url.split('?')[0]`. -/
def strQuery (s : String) : String :=
  ⟨(splitChars '?' s.data).headD []⟩

/-- The live-reload observer snippet injected into every HTML response. -/
def liveReloadScript : String :=
  "<script>\n(function() \x7b\n  const es = new EventSource('/_lr');\n  es.onmessage = () => location.reload();\n  es.onerror = () => setTimeout(() => location.reload(), 1000);\n\x7d)();\n</script>"

/-- Split a character list around the first occurrence of `pat`. -/
def splitFirst (pat : List Char) : List Char → Option (List Char × List Char)
  | [] => if pat.isEmpty then some ([], []) else none
  | c :: cs =>
    if pat.isPrefixOf (c :: cs) then some ([], (c :: cs).drop pat.length)
    else
      match splitFirst pat cs with
      | some (pre, post) => some (c :: pre, post)
      | none => none

/-- `html.replace('</body>', SCRIPT + '</body>')`, falling back to appending
the script when no closing body tag occurs. -/
def injectReload (html : String) : String :=
  match splitFirst "</body>".data html.data with
  | some (pre, post) => ⟨pre⟩ ++ liveReloadScript ++ "</body>" ++ ⟨post⟩
  | none => html ++ liveReloadScript

/-- The file-system view the request handler consults: `fsExists` is
`fs.existsSync`, `fsIsDir` the `statSync(..).isDirectory()` probe, and
`fsRead` is `fs.readFileSync` with `none` modelling a thrown read error. -/
structure FsView where
  fsExists : String → Bool
  fsIsDir : String → Bool
  fsRead : String → Option String

inductive ServeOutcome where
  | sse
  | notFound
  | serverError
  | ok (servedPath : String) (body : String)
deriving Repr, DecidableEq

/-- The dev server's HTTP request handler: the `/_lr` path upgrades to the
SSE channel; any other URL is joined onto the output root (query string
stripped, no rejection of `..` segments), directories substitute their
`index.html`, missing files get 404, unreadable files 500, and HTML bodies
receive the reload snippet. -/
def serveRequest (fs : FsView) (outputPath reqUrl : String) : ServeOutcome :=
  let urlPath := strQuery reqUrl
  if urlPath = "/_lr" then .sse
  else
    let fp0 := joinNorm outputPath urlPath
    let fp := if fs.fsExists fp0 && fs.fsIsDir fp0 then joinNorm fp0 "index.html" else fp0
    if !(fs.fsExists fp) then .notFound
    else
      match fs.fsRead fp with
      | none => .serverError
      | some content => .ok fp (if endsHtml fp then injectReload content else content)

/-- A path is under the output root when it is the root itself or the root
followed by a separator is a prefix of it. -/
def underRoot (root p : String) : Bool :=
  p == root || (root ++ "/").data.isPrefixOf p.data

/-- A file system where only `secret.txt` — a file next to, not inside, the
`_site` output root — exists. -/
def secretFs : FsView where
  fsExists := fun p => p == "secret.txt"
  fsIsDir := fun _ => false
  fsRead := fun p => if p == "secret.txt" then some "TOP-SECRET" else none

/-- C10: the handler joins the raw URL path onto the output root without
rejecting `..` segments, so the request `/../secret.txt` against root
`_site` resolves to `secret.txt` — outside the root — and, the file
existing, its contents are served with status 200. -/
theorem claim_C10 :
    serveRequest secretFs "_site" "/../secret.txt"
        = ServeOutcome.ok "secret.txt" "TOP-SECRET" ∧
    underRoot "_site" "secret.txt" = false := by
  exact ⟨by decide, by decide⟩

end CampaignKit
